import Mathlib

/-!
Verification of the Snark (Snorkel-on-Spark) tutorial and its labeling engine.

Part 1 (`Snark`): shallow embedding of the labeling functions defined in
`tutorials/snark/Snark Tutorial.ipynb`.  Each regex / substring test on the
candidate text is an opaque Boolean observable of the candidate (the notebook
evaluates a fixed regular expression against a fixed string derived from the
candidate, so the test is a pure function of the candidate).  The context
hierarchy rules (`LF_closer_chem`, `LF_closer_dis`) are embedded with their
full index arithmetic; Python integer division `//` (floor) is `Int.fdiv`
and Python `range(a, b)` is `pyRange a b`.

Part 2 (`Engine`): the distributed execution engine (`SparkLabelAnnotator`:
prepare / apply / assemble / lf_stats).  Its implementation is not part of
the checked-out sources (the notebook only calls it), so it is modelled from
the specification, as marked on each definition.
-/

namespace Snark

/-- A mention span of a candidate: word offsets returned by
`get_word_start()` / `get_word_end()`. -/
structure Span where
  word_start : Nat
  word_end : Nat
deriving DecidableEq

/-- The sentence context returned by `c.get_parent()`: parallel arrays of
words, entity types and entity CIDs. -/
structure Sentence where
  words : List String
  entity_types : List String
  entity_cids : List String
deriving DecidableEq

/-- A `ChemicalDisease` candidate together with the Boolean observables the
notebook's labeling functions test.  Each `m_`-field is the truth value of
one fixed regex / substring test against text derived from the candidate
(`get_tagged_text(c)` or a mention span), and the `in_ctd_`-fields are the
results of `c.get_cids() in ctd_*.value` against the broadcast CTD tables. -/
structure Candidate where
  chemical : Span
  disease : Span
  sent : Sentence
  in_ctd_unspecified : Bool
  in_ctd_therapy : Bool
  in_ctd_marker : Bool
  m_induce : Bool
  m_d_induced_by_c : Bool
  m_d_induced_by_c_tight : Bool
  m_induce_name : Bool
  m_c_cause_d : Bool
  m_c_cause_d_neg : Bool
  m_d_treat_c : Bool
  m_c_treat_d : Bool
  m_treat_d : Bool
  m_c_treat_d_wide : Bool
  m_c_d : Bool
  m_dash_induc : Bool
  m_dash_assoc : Bool
  m_improve_before_disease : Bool
  m_in_patient_with : Bool
  m_uncertain : Bool
  m_induced_other : Bool
  m_far_c_d : Bool
  m_far_d_c : Bool
  m_risk_d : Bool
  m_develop_d_following_c : Bool
  m_d_following_c : Bool
  m_measure : Bool
  m_level : Bool
  m_neg_d : Bool
  m_weak_assertions : Bool
deriving DecidableEq

/-- Modelled from the spec: the `rule_regex_search_*` helpers from
`snorkel.lf_helpers` are not under the checked-out sources; per the LF
contract they return their integer label when the regex matched and abstain
with 0 otherwise.  The match result is the Boolean observable. -/
def rule_regex_search (matched : Bool) (label : Int) : Int :=
  if matched then label else 0

/-- `cand_in_ctd_unspecified`: 1 if `c.get_cids() in ctd_unspecified.value` else 0. -/
def cand_in_ctd_unspecified (c : Candidate) : Int :=
  if c.in_ctd_unspecified then 1 else 0

/-- `cand_in_ctd_therapy`: 1 if `c.get_cids() in ctd_therapy.value` else 0. -/
def cand_in_ctd_therapy (c : Candidate) : Int :=
  if c.in_ctd_therapy then 1 else 0

/-- `cand_in_ctd_marker`: 1 if `c.get_cids() in ctd_marker.value` else 0. -/
def cand_in_ctd_marker (c : Candidate) : Int :=
  if c.in_ctd_marker then 1 else 0

/-- `LF_in_ctd_unspecified(c) = -1 * cand_in_ctd_unspecified(c)`. -/
def LF_in_ctd_unspecified (c : Candidate) : Int :=
  -1 * cand_in_ctd_unspecified c

/-- `LF_in_ctd_therapy(c) = -1 * cand_in_ctd_therapy(c)`. -/
def LF_in_ctd_therapy (c : Candidate) : Int :=
  -1 * cand_in_ctd_therapy c

/-- `LF_in_ctd_marker(c) = cand_in_ctd_marker(c)`. -/
def LF_in_ctd_marker (c : Candidate) : Int :=
  cand_in_ctd_marker c

/-- `LF_induce`: 1 on regex match of an induce pattern between A and B, else 0. -/
def LF_induce (c : Candidate) : Int :=
  if c.m_induce then 1 else 0

/-- `LF_d_induced_by_c = rule_regex_search_btw_BA(c, causal-past pattern, 1)`. -/
def LF_d_induced_by_c (c : Candidate) : Int :=
  rule_regex_search c.m_d_induced_by_c 1

/-- `LF_d_induced_by_c_tight = rule_regex_search_btw_BA(c, tight causal pattern, 1)`. -/
def LF_d_induced_by_c_tight (c : Candidate) : Int :=
  rule_regex_search c.m_d_induced_by_c_tight 1

/-- `LF_induce_name`: 1 if the chemical span contains the substring induc. -/
def LF_induce_name (c : Candidate) : Int :=
  if c.m_induce_name then 1 else 0

/-- `LF_c_cause_d`: 1 if the causal pattern matches and the negated causal
pattern does not, else 0 (Python `and not`). -/
def LF_c_cause_d (c : Candidate) : Int :=
  if c.m_c_cause_d && !c.m_c_cause_d_neg then 1 else 0

/-- `LF_d_treat_c = rule_regex_search_btw_BA(c, treat pattern, -1)`. -/
def LF_d_treat_c (c : Candidate) : Int :=
  rule_regex_search c.m_d_treat_c (-1)

/-- `LF_c_treat_d = rule_regex_search_btw_AB(c, treat pattern, -1)`. -/
def LF_c_treat_d (c : Candidate) : Int :=
  rule_regex_search c.m_c_treat_d (-1)

/-- `LF_treat_d = rule_regex_search_before_B(c, treat pattern, -1)`. -/
def LF_treat_d (c : Candidate) : Int :=
  rule_regex_search c.m_treat_d (-1)

/-- `LF_c_treat_d_wide = rule_regex_search_btw_AB(c, wide treat pattern, -1)`. -/
def LF_c_treat_d_wide (c : Candidate) : Int :=
  rule_regex_search c.m_c_treat_d_wide (-1)

/-- `LF_c_d`: 1 if the tagged text contains the adjacency pattern, else 0. -/
def LF_c_d (c : Candidate) : Int :=
  if c.m_c_d then 1 else 0

/-- `LF_c_induced_d`: 1 if the adjacency pattern holds and the chemical span
contains a dash-induc or dash-assoc substring, else 0. -/
def LF_c_induced_d (c : Candidate) : Int :=
  if c.m_c_d && (c.m_dash_induc || c.m_dash_assoc) then 1 else 0

/-- `LF_improve_before_disease = rule_regex_search_before_B(c, improv pattern, -1)`. -/
def LF_improve_before_disease (c : Candidate) : Int :=
  rule_regex_search c.m_improve_before_disease (-1)

/-- `LF_in_patient_with`: -1 on the in-patients-with pattern, else 0. -/
def LF_in_patient_with (c : Candidate) : Int :=
  if c.m_in_patient_with then -1 else 0

/-- `LF_uncertain = rule_regex_search_before_A(c, uncertain pattern, -1)`. -/
def LF_uncertain (c : Candidate) : Int :=
  rule_regex_search c.m_uncertain (-1)

/-- `LF_induced_other = rule_regex_search_tagged_text(c, far-induced pattern, -1)`. -/
def LF_induced_other (c : Candidate) : Int :=
  rule_regex_search c.m_induced_other (-1)

/-- `LF_far_c_d = rule_regex_search_btw_AB(c, long-gap pattern, -1)`. -/
def LF_far_c_d (c : Candidate) : Int :=
  rule_regex_search c.m_far_c_d (-1)

/-- `LF_far_d_c = rule_regex_search_btw_BA(c, long-gap pattern, -1)`. -/
def LF_far_d_c (c : Candidate) : Int :=
  rule_regex_search c.m_far_d_c (-1)

/-- `LF_risk_d = rule_regex_search_before_B(c, risk-of pattern, 1)`. -/
def LF_risk_d (c : Candidate) : Int :=
  rule_regex_search c.m_risk_d 1

/-- `LF_develop_d_following_c`: 1 on its regex match, else 0. -/
def LF_develop_d_following_c (c : Candidate) : Int :=
  if c.m_develop_d_following_c then 1 else 0

/-- `LF_d_following_c`: 1 on its regex match, else 0. -/
def LF_d_following_c (c : Candidate) : Int :=
  if c.m_d_following_c then 1 else 0

/-- `LF_measure`: -1 on its regex match, else 0. -/
def LF_measure (c : Candidate) : Int :=
  if c.m_measure then -1 else 0

/-- `LF_level`: -1 on its regex match, else 0. -/
def LF_level (c : Candidate) : Int :=
  if c.m_level then -1 else 0

/-- `LF_neg_d`: -1 on its regex match, else 0. -/
def LF_neg_d (c : Candidate) : Int :=
  if c.m_neg_d then -1 else 0

/-- `LF_weak_assertions`: -1 on the weak-phrase regex match, else 0. -/
def LF_weak_assertions (c : Candidate) : Int :=
  if c.m_weak_assertions then -1 else 0

/-- Python's `a or b` on integers: `a` if `a` is truthy (nonzero), else `b`. -/
def pyOr (a b : Int) : Int :=
  if a ≠ 0 then a else b

/-- `LF_ctd_marker_c_d(c) = LF_c_d(c) * cand_in_ctd_marker(c)`. -/
def LF_ctd_marker_c_d (c : Candidate) : Int :=
  LF_c_d c * cand_in_ctd_marker c

/-- `LF_ctd_marker_induce(c) = (LF_c_induced_d(c) or LF_d_induced_by_c_tight(c)) * cand_in_ctd_marker(c)`. -/
def LF_ctd_marker_induce (c : Candidate) : Int :=
  pyOr (LF_c_induced_d c) (LF_d_induced_by_c_tight c) * cand_in_ctd_marker c

/-- `LF_ctd_therapy_treat(c) = LF_c_treat_d_wide(c) * cand_in_ctd_therapy(c)`. -/
def LF_ctd_therapy_treat (c : Candidate) : Int :=
  LF_c_treat_d_wide c * cand_in_ctd_therapy c

/-- `LF_ctd_unspecified_treat(c) = LF_c_treat_d_wide(c) * cand_in_ctd_unspecified(c)`. -/
def LF_ctd_unspecified_treat (c : Candidate) : Int :=
  LF_c_treat_d_wide c * cand_in_ctd_unspecified c

/-- `LF_ctd_unspecified_induce(c) = (LF_c_induced_d(c) or LF_d_induced_by_c_tight(c)) * cand_in_ctd_unspecified(c)`. -/
def LF_ctd_unspecified_induce (c : Candidate) : Int :=
  pyOr (LF_c_induced_d c) (LF_d_induced_by_c_tight c) * cand_in_ctd_unspecified c

/-- Python `range(a, b)` over integers: `a, a+1, ..., b-1`, empty when `b ≤ a`. -/
def pyRange (a b : Int) : List Int :=
  (List.range (b - a).toNat).map fun (k : Nat) => a + (k : Int)

/-- The shared loop body of `LF_closer_chem` / `LF_closer_dis`, run over the
concatenated loop index list in Python's evaluation order.  Each iteration
first reads `sent.entity_types[i]` and `sent.entity_cids[i]` (the tuple
assignment), then, only when the entity type matches (Python `and`
short-circuit), reads `sent.entity_cids[ref]` and returns -1 on a differing
CID; falling off both loops returns 0.  An out-of-bounds subscript is a
Python `IndexError`: the scan returns `none` and no vote is produced.  The
loop indices are provably nonnegative (each range is clamped below by a
natural number or by `max 0 _`), so `Int.toNat` indexing is faithful. -/
def closerScan (types cids : List String) (target : String) (ref : Nat) :
    List Int → Option Int
  | [] => some 0
  | i :: rest =>
    match types[i.toNat]?, cids[i.toNat]? with
    | some et, some cid =>
      if et == target then
        match cids[ref]? with
        | some refCid =>
          if cid != refCid then some (-1)
          else closerScan types cids target ref rest
        | none => none
      else closerScan types cids target ref rest
    | _, _ => none

/-- `dist` in `LF_closer_chem` / `LF_closer_dis`:
`chem_start - dis_end` when the disease mention comes first,
else `dis_start - chem_end`. -/
def closerDist (c : Candidate) : Int :=
  if c.disease.word_start < c.chemical.word_start then
    (c.chemical.word_start : Int) - (c.disease.word_end : Int)
  else
    (c.disease.word_start : Int) - (c.chemical.word_end : Int)

/-- The loop index ranges of `LF_closer_chem`:
`range(dis_end, min(len(sent.words), dis_end + dist / 2))` followed by
`range(max(0, dis_start - dist / 2), dis_start)`. -/
def closerChemIdx (c : Candidate) : List Int :=
  pyRange (c.disease.word_end : Int)
      (min (c.sent.words.length : Int) ((c.disease.word_end : Int) + (closerDist c).fdiv 2)) ++
    pyRange (max 0 ((c.disease.word_start : Int) - (closerDist c).fdiv 2))
      (c.disease.word_start : Int)

/-- All indices at which `LF_closer_chem` subscripts `sent.entity_types` /
`sent.entity_cids`: the loop indices, plus `chem_start` (read as
`sent.entity_cids[chem_start]` inside the loop body) whenever at least one
loop iteration runs. -/
def closerChemReads (c : Candidate) : List Int :=
  closerChemIdx c ++
    (if closerChemIdx c = [] then [] else [(c.chemical.word_start : Int)])

/-- The faithful evaluation of `LF_closer_chem`: -1 when a loop index holds
another Chemical entity with a CID differing from the candidate chemical's,
0 when both loops fall through, `none` when the Python code raises
`IndexError` on an out-of-bounds entity-array read. -/
def LF_closer_chem_run (c : Candidate) : Option Int :=
  closerScan c.sent.entity_types c.sent.entity_cids "Chemical"
    c.chemical.word_start (closerChemIdx c)

/-- `LF_closer_chem` as the integer-valued member of the `LFs` list: the
vote of `LF_closer_chem_run` where that evaluation is defined.  The
`IndexError` path (`LF_closer_chem_run c = none`) produces no vote in
Python; it is mapped to abstain here only so the list shares one type, and
the claims about this function either restrict to candidates where the run
is `some` or exhibit the `none` path explicitly. -/
def LF_closer_chem (c : Candidate) : Int :=
  match LF_closer_chem_run c with
  | some v => v
  | none => 0

/-- The loop index ranges of `LF_closer_dis`:
`range(chem_end, min(len(sent.words), chem_end + dist / 8))` followed by
`range(max(0, chem_start - dist / 8), chem_start)`. -/
def closerDisIdx (c : Candidate) : List Int :=
  pyRange (c.chemical.word_end : Int)
      (min (c.sent.words.length : Int) ((c.chemical.word_end : Int) + (closerDist c).fdiv 8)) ++
    pyRange (max 0 ((c.chemical.word_start : Int) - (closerDist c).fdiv 8))
      (c.chemical.word_start : Int)

/-- All indices at which `LF_closer_dis` subscripts the entity arrays:
the loop indices, plus `dis_start` whenever a loop iteration runs. -/
def closerDisReads (c : Candidate) : List Int :=
  closerDisIdx c ++
    (if closerDisIdx c = [] then [] else [(c.disease.word_start : Int)])

/-- The faithful evaluation of `LF_closer_dis`: -1 when a loop index holds
another Disease entity with a CID differing from the candidate disease's,
0 when both loops fall through, `none` on an `IndexError`. -/
def LF_closer_dis_run (c : Candidate) : Option Int :=
  closerScan c.sent.entity_types c.sent.entity_cids "Disease"
    c.disease.word_start (closerDisIdx c)

/-- `LF_closer_dis` as the integer-valued member of the `LFs` list, with the
same conventions as `LF_closer_chem`. -/
def LF_closer_dis (c : Candidate) : Int :=
  match LF_closer_dis_run c with
  | some v => v
  | none => 0

/-- The notebook's `LFs` list, in its order. -/
def LFs : List (Candidate → Int) :=
  [LF_c_cause_d, LF_c_d, LF_c_induced_d, LF_c_treat_d, LF_c_treat_d_wide,
   LF_closer_chem, LF_closer_dis, LF_ctd_marker_c_d, LF_ctd_marker_induce,
   LF_ctd_therapy_treat, LF_ctd_unspecified_treat, LF_ctd_unspecified_induce, LF_d_following_c,
   LF_d_induced_by_c, LF_d_induced_by_c_tight, LF_d_treat_c, LF_develop_d_following_c, LF_far_c_d,
   LF_far_d_c, LF_improve_before_disease, LF_in_ctd_therapy, LF_in_ctd_marker,
   LF_in_patient_with, LF_induce, LF_induce_name, LF_induced_other,
   LF_level, LF_measure, LF_neg_d, LF_risk_d,
   LF_treat_d, LF_uncertain, LF_weak_assertions]

/-- A vote is in the notebook's label alphabet. -/
def voteOK (v : Int) : Prop :=
  v = -1 ∨ v = 0 ∨ v = 1

/-- The abstain-dominant sign-product combination rule: zero if either
operand is zero, else the product of the signs. -/
def signProd (a b : Int) : Int :=
  if a = 0 ∨ b = 0 then 0 else a.sign * b.sign

/-- A concrete candidate whose disease mention starts inside the sentence
word range used in examples: all textual observables false, an empty
sentence, chemical span at words 5..5 and disease span at words 1..1. -/
def cBad : Candidate :=
  { chemical := ⟨5, 5⟩
    disease := ⟨1, 1⟩
    sent := ⟨[], [], []⟩
    in_ctd_unspecified := false
    in_ctd_therapy := false
    in_ctd_marker := false
    m_induce := false
    m_d_induced_by_c := false
    m_d_induced_by_c_tight := false
    m_induce_name := false
    m_c_cause_d := false
    m_c_cause_d_neg := false
    m_d_treat_c := false
    m_c_treat_d := false
    m_treat_d := false
    m_c_treat_d_wide := false
    m_c_d := false
    m_dash_induc := false
    m_dash_assoc := false
    m_improve_before_disease := false
    m_in_patient_with := false
    m_uncertain := false
    m_induced_other := false
    m_far_c_d := false
    m_far_d_c := false
    m_risk_d := false
    m_develop_d_following_c := false
    m_d_following_c := false
    m_measure := false
    m_level := false
    m_neg_d := false
    m_weak_assertions := false }

/-- A concrete candidate whose mentions lie inside a six-word sentence:
chemical span at words 5..5, disease span at words 1..1, entity arrays as
long as the words array. -/
def cGood : Candidate :=
  { cBad with
    sent := ⟨["w0", "w1", "w2", "w3", "w4", "w5"],
             ["O", "O", "O", "Chemical", "O", "Chemical"],
             ["", "", "", "c7", "", "c9"]⟩ }

end Snark

namespace Engine

/-- Modelled from the spec: a sparse matrix entry, a (row, col, value)
triple of integer votes. -/
abbrev Triple := Nat × Nat × Int

/-- Modelled from the spec: the Label Matrix, a sparse, row-aligned-by-
candidate, column-aligned-by-function matrix of integer votes; non-stored
entries are implicitly abstain (0). -/
structure LabelMatrix where
  rowCount : Nat
  colCount : Nat
  entries : List Triple
deriving DecidableEq

variable {α : Type}

/-- Modelled from the spec: the vote of the `j`-th function of the ordered
sequence `F` on candidate `c` (0 when `j` is out of range, matching the
sparse default). -/
def rowVote (F : List (α → Int)) (c : α) (j : Nat) : Int :=
  match F[j]? with
  | some f => f c
  | none => 0

/-- Modelled from the spec: the sparse row the Function Dispatcher emits for
the candidate at stable row index `i`: one triple per function of `F`, in
function order, with abstain (0) entries omitted. -/
def rowTriples (F : List (α → Int)) (i : Nat) (c : α) : List Triple :=
  (List.range F.length).filterMap fun j =>
    if rowVote F c j = 0 then none else some (i, j, rowVote F c j)

/-- Modelled from the spec: one worker's output on its partition — candidates
carry their stable row index assigned at distribution time. -/
def workerTriples (F : List (α → Int)) (part : List (Nat × α)) : List Triple :=
  part.flatMap fun ic => rowTriples F ic.1 ic.2

/-- Modelled from the spec: the canonical sparse triple list of `apply`:
every candidate, in the cache's stable order, against every function, in the
caller-supplied order. -/
def applyTriples (cs : List α) (F : List (α → Int)) : List Triple :=
  workerTriples F cs.enum

/-- Modelled from the spec: `apply(functions, split) -> LabelMatrix` with
row count `|C|` for the labeled split and column count `|F|`. -/
def applyMatrix (cs : List α) (F : List (α → Int)) : LabelMatrix :=
  ⟨cs.length, F.length, applyTriples cs F⟩

/-- Modelled from the spec: the per-partition rows gathered back to the
coordinator, concatenated in whatever order the partitions arrive. -/
def gatherTriples (parts : List (List (Nat × α))) (F : List (α → Int)) : List Triple :=
  parts.flatMap (workerTriples F)

/-- Modelled from the spec: `parts` is a valid distribution of the cached
candidate set `cs` — the partitions, taken together in any arrival order and
any within-partition schedule, contain exactly the stably indexed
candidates.  This covers any worker count and any scheduling. -/
def isPartitionOf (parts : List (List (Nat × α))) (cs : List α) : Prop :=
  (parts.flatMap id).Perm cs.enum

/-- Modelled from the spec: the dense reading of a cell of the Label Matrix;
a missing (row, col) entry is implicitly abstain (0). -/
def cellValue (M : LabelMatrix) (i j : Nat) : Int :=
  match M.entries.find? (fun t => t.1 == i && t.2.1 == j) with
  | some t => t.2.2
  | none => 0

/-- Modelled from the spec: the per-function LF Statistics Record; an
undefined metric (zero-row matrix) is the explicit marker `none`. -/
structure LFStats where
  coverage : Option ℚ
  overlap : Option ℚ
  conflict : Option ℚ
deriving DecidableEq

/-- Modelled from the spec: number of rows on which function `j` votes
non-abstain. -/
def coverageCount (M : LabelMatrix) (j : Nat) : Nat :=
  ((List.range M.rowCount).filter fun i => cellValue M i j != 0).length

/-- Modelled from the spec: number of rows on which function `j` votes
non-abstain and some other function also votes non-abstain. -/
def overlapCount (M : LabelMatrix) (j : Nat) : Nat :=
  ((List.range M.rowCount).filter fun i =>
    cellValue M i j != 0 &&
      (List.range M.colCount).any fun j2 => j2 != j && cellValue M i j2 != 0).length

/-- Modelled from the spec: number of rows on which function `j` votes
non-abstain and some function votes non-abstain with the opposite sign. -/
def conflictCount (M : LabelMatrix) (j : Nat) : Nat :=
  ((List.range M.rowCount).filter fun i =>
    cellValue M i j != 0 &&
      (List.range M.colCount).any fun j2 =>
        decide (cellValue M i j2 * cellValue M i j < 0)).length

/-- Modelled from the spec: `lf_stats(matrix)`, one record per column in
column order; fractions are over the total row count, and a zero-row
matrix yields the explicit undefined marker instead of dividing by zero. -/
def lf_stats (M : LabelMatrix) : List LFStats :=
  (List.range M.colCount).map fun j =>
    if M.rowCount = 0 then ⟨none, none, none⟩
    else
      ⟨some ((coverageCount M j : ℚ) / (M.rowCount : ℚ)),
       some ((overlapCount M j : ℚ) / (M.rowCount : ℚ)),
       some ((conflictCount M j : ℚ) / (M.rowCount : ℚ))⟩

/-- Modelled from the spec: the session-scoped Candidate Partitioner and
Cache registry: a table keyed by `(split, candidate_set_identity)` holding
cached handles, a transmission counter observing physical data movement,
and a fresh-handle supply. -/
structure CacheState where
  table : List ((Nat × Nat) × Nat)
  transmissions : Nat
  nextHandle : Nat
deriving DecidableEq

/-- Modelled from the spec: `prepare(candidate_set, split) -> cached_handle`.
A hit on `(split, ident)` returns the existing handle with no transmission;
a miss distributes the data once (one transmission) and registers a fresh
handle. -/
def prepare (st : CacheState) (split ident : Nat) : CacheState × Nat :=
  match st.table.lookup (split, ident) with
  | some h => (st, h)
  | none =>
    (⟨((split, ident), st.nextHandle) :: st.table,
      st.transmissions + 1, st.nextHandle + 1⟩, st.nextHandle)

/-- Modelled from the spec: the error a faulting labeling function surfaces,
carrying the failing function's identity (its position in `F`) and the
candidate's key. -/
structure LFExecutionError where
  lfIndex : Nat
  candKey : Nat
deriving DecidableEq

/-- Modelled from the spec: the dispatcher's two failure-handling modes,
fail-fast (default) and opt-in isolated failures. -/
inductive ApplyMode
  | failFast
  | isolated
deriving DecidableEq

/-- Modelled from the spec: the outcome of running the `j`-th function on
the `i`-th keyed candidate (`none` when out of range). -/
def cellRun (cs : List (Nat × α)) (F : List (α → Except Unit Int)) (i j : Nat) :
    Option (Except Unit Int) :=
  match cs[i]?, F[j]? with
  | some kc, some f => some (f kc.2)
  | _, _ => none

/-- Modelled from the spec: whether the `j`-th function raises an unexpected
fault on the `i`-th candidate. -/
def isFault (cs : List (Nat × α)) (F : List (α → Except Unit Int)) (i j : Nat) : Bool :=
  match cellRun cs F i j with
  | some (.error _) => true
  | _ => false

/-- Modelled from the spec: the stable key of the `i`-th cached candidate. -/
def keyAt (cs : List (Nat × α)) (i : Nat) : Nat :=
  ((cs[i]?).map Prod.fst).getD 0

/-- Modelled from the spec: the per-run fault log, faults in row-major
(candidate-order, then function-order) encounter order, each carrying the
function identity and the candidate key. -/
def faultLog (cs : List (Nat × α)) (F : List (α → Except Unit Int)) :
    List LFExecutionError :=
  (List.range cs.length).flatMap fun i =>
    (List.range F.length).filterMap fun j =>
      if isFault cs F i j then some ⟨j, keyAt cs i⟩ else none

/-- Modelled from the spec: the sparse triples of the successful cells —
faulting cells are recorded as abstain (omitted), as in isolated mode. -/
def okTriples (cs : List (Nat × α)) (F : List (α → Except Unit Int)) : List Triple :=
  (List.range cs.length).flatMap fun i =>
    (List.range F.length).filterMap fun j =>
      match cellRun cs F i j with
      | some (.ok v) => if v = 0 then none else some (i, j, v)
      | _ => none

/-- Modelled from the spec: `apply` over fallible functions.  Fail-fast
aborts the whole run with the first fault encountered; isolated mode
succeeds with faulting cells abstained and the fault log returned alongside
the triples. -/
def applyFallible (mode : ApplyMode) (cs : List (Nat × α))
    (F : List (α → Except Unit Int)) :
    Except LFExecutionError (List Triple × List LFExecutionError) :=
  match mode with
  | .failFast =>
    match faultLog cs F with
    | [] => .ok (okTriples cs F, [])
    | e :: _ => .error e
  | .isolated => .ok (okTriples cs F, faultLog cs F)

/-- Modelled from the spec: the (row, col) coordinates of a triple list. -/
def coordsOf (ts : List Triple) : List (Nat × Nat) :=
  ts.map fun t => (t.1, t.2.1)

/-- Modelled from the spec: the fatal assembly error for a duplicate or
out-of-range coordinate. -/
structure InvariantViolation where
deriving DecidableEq

/-- Modelled from the spec: `assemble(per-partition rows, row_count,
col_count) -> LabelMatrix`.  Merges the partition outputs in arrival order;
a duplicate (row, col) coordinate or an out-of-range coordinate is a fatal
`InvariantViolation`, never silently repaired. -/
def assemble (parts : List (List Triple)) (rowCount colCount : Nat) :
    Except InvariantViolation LabelMatrix :=
  let ts := parts.flatMap id
  if (coordsOf ts).Nodup ∧ ∀ t ∈ ts, t.1 < rowCount ∧ t.2.1 < colCount then
    .ok ⟨rowCount, colCount, ts⟩
  else
    .error ⟨⟩

/-- A small concrete candidate set used to exercise the engine model. -/
def sampleCands : List Nat := [3, 4]

/-- A one-function list over `sampleCands`. -/
def sampleLFs : List (Nat → Int) := [fun c => (c : Int) - 3]

/-- A two-function list over `sampleCands`. -/
def sampleLFs2 : List (Nat → Int) := [fun c => (c : Int) - 3, fun _ => 2]

/-- `sampleCands` distributed on one worker. -/
def samplePartsA : List (List (Nat × Nat)) := [[(0, 3), (1, 4)]]

/-- `sampleCands` distributed on two workers, gathered in reversed order. -/
def samplePartsB : List (List (Nat × Nat)) := [[(1, 4)], [(0, 3)]]

/-- A one-candidate keyed set (key 5) for the dispatcher fault model. -/
def sampleKeyed : List (Nat × Nat) := [(5, 0)]

/-- A function list whose single function faults on every candidate. -/
def sampleFaulty : List (Nat → Except Unit Int) := [fun _ => .error ()]

/-- Two partition outputs that both emit coordinate (0, 0) — a duplicate. -/
def sampleDupA : List (List Triple) := [[(0, 0, 1)], [(0, 0, 2)]]

/-- The same partition outputs arriving in the opposite order. -/
def sampleDupB : List (List Triple) := [[(0, 0, 2)], [(0, 0, 1)]]

end Engine

theorem list_toFinset_eq_of_perm {β : Type} [DecidableEq β] {l₁ l₂ : List β}
    (h : l₁.Perm l₂) : l₁.toFinset = l₂.toFinset :=
  Finset.ext fun a => by simp [List.mem_toFinset, h.mem_iff]

theorem snark_mem_pyRange {a b i : Int} : i ∈ Snark.pyRange a b ↔ a ≤ i ∧ i < b := by
  simp only [Snark.pyRange, List.mem_map, List.mem_range]
  constructor
  · rintro ⟨k, hk, rfl⟩
    omega
  · rintro ⟨h1, h2⟩
    exact ⟨(i - a).toNat, by omega, by omega⟩

theorem snark_mul_eq_signProd {a b : Int} (ha : Snark.voteOK a) (hb : Snark.voteOK b) :
    a * b = Snark.signProd a b := by
  rcases ha with rfl | rfl | rfl <;> rcases hb with rfl | rfl | rfl <;> decide

theorem snark_voteOK_LF_c_d (c : Snark.Candidate) : Snark.voteOK (Snark.LF_c_d c) := by
  simp only [Snark.LF_c_d, Snark.voteOK]
  split_ifs <;> norm_num

theorem snark_voteOK_LF_c_treat_d_wide (c : Snark.Candidate) :
    Snark.voteOK (Snark.LF_c_treat_d_wide c) := by
  simp only [Snark.LF_c_treat_d_wide, Snark.rule_regex_search, Snark.voteOK]
  split_ifs <;> norm_num

theorem snark_voteOK_cand_in_ctd_marker (c : Snark.Candidate) :
    Snark.voteOK (Snark.cand_in_ctd_marker c) := by
  simp only [Snark.cand_in_ctd_marker, Snark.voteOK]
  split_ifs <;> norm_num

theorem snark_voteOK_cand_in_ctd_therapy (c : Snark.Candidate) :
    Snark.voteOK (Snark.cand_in_ctd_therapy c) := by
  simp only [Snark.cand_in_ctd_therapy, Snark.voteOK]
  split_ifs <;> norm_num

theorem snark_voteOK_cand_in_ctd_unspecified (c : Snark.Candidate) :
    Snark.voteOK (Snark.cand_in_ctd_unspecified c) := by
  simp only [Snark.cand_in_ctd_unspecified, Snark.voteOK]
  split_ifs <;> norm_num

theorem snark_voteOK_pyOr {a b : Int} (ha : Snark.voteOK a) (hb : Snark.voteOK b) :
    Snark.voteOK (Snark.pyOr a b) := by
  rcases ha with rfl | rfl | rfl <;> rcases hb with rfl | rfl | rfl <;>
    simp [Snark.pyOr, Snark.voteOK]

theorem snark_voteOK_induce_arm (c : Snark.Candidate) :
    Snark.voteOK (Snark.pyOr (Snark.LF_c_induced_d c) (Snark.LF_d_induced_by_c_tight c)) := by
  apply snark_voteOK_pyOr
  · simp only [Snark.LF_c_induced_d, Snark.voteOK]
    split_ifs <;> norm_num
  · simp only [Snark.LF_d_induced_by_c_tight, Snark.rule_regex_search, Snark.voteOK]
    split_ifs <;> norm_num

theorem snark_closerScan_vote {types cids : List String} {target : String} {ref : Nat}
    {idxs : List Int} {v : Int}
    (h : Snark.closerScan types cids target ref idxs = some v) : v = -1 ∨ v = 0 := by
  induction idxs with
  | nil =>
    simp [Snark.closerScan] at h
    omega
  | cons i rest ih =>
    simp only [Snark.closerScan] at h
    rcases hT : types[i.toNat]? with _ | et <;> rw [hT] at h
    · simp at h
    · rcases hC : cids[i.toNat]? with _ | cid <;> rw [hC] at h
      · simp at h
      · simp only at h
        rcases het : et == target with _ | _ <;> simp only [het] at h
        · simp only [Bool.false_eq_true, if_false] at h
          exact ih h
        · simp only [if_true] at h
          rcases hR : cids[ref]? with _ | refCid <;> rw [hR] at h
          · simp at h
          · simp only at h
            rcases hne : cid != refCid with _ | _ <;> simp only [hne] at h
            · simp only [Bool.false_eq_true, if_false] at h
              exact ih h
            · simp only [if_true, Option.some.injEq] at h
              omega

theorem snark_closerScan_isSome {types cids : List String} (target : String) {ref : Nat}
    {idxs : List Int} (href : ref < cids.length)
    (hb : ∀ i ∈ idxs, 0 ≤ i ∧ i.toNat < types.length ∧ i.toNat < cids.length) :
    ∃ v, Snark.closerScan types cids target ref idxs = some v := by
  induction idxs with
  | nil => exact ⟨0, rfl⟩
  | cons i rest ih =>
    obtain ⟨h0, hTi, hCi⟩ := hb i (List.mem_cons_self i rest)
    obtain ⟨v, hv⟩ := ih fun j hj => hb j (List.mem_cons_of_mem i hj)
    simp only [Snark.closerScan, List.getElem?_eq_getElem hTi, List.getElem?_eq_getElem hCi,
      List.getElem?_eq_getElem href]
    split_ifs
    · exact ⟨-1, rfl⟩
    · exact ⟨v, hv⟩
    · exact ⟨v, hv⟩

theorem snark_closer_chem_vote (c : Snark.Candidate) :
    Snark.LF_closer_chem c = -1 ∨ Snark.LF_closer_chem c = 0 ∨ Snark.LF_closer_chem c = 1 := by
  unfold Snark.LF_closer_chem
  rcases hrun : Snark.LF_closer_chem_run c with _ | v
  · simp
  · have hv := snark_closerScan_vote (show Snark.closerScan c.sent.entity_types
      c.sent.entity_cids "Chemical" c.chemical.word_start (Snark.closerChemIdx c) =
        some v from hrun)
    simp only
    rcases hv with rfl | rfl
    · exact Or.inl rfl
    · exact Or.inr (Or.inl rfl)

theorem snark_closer_dis_vote (c : Snark.Candidate) :
    Snark.LF_closer_dis c = -1 ∨ Snark.LF_closer_dis c = 0 ∨ Snark.LF_closer_dis c = 1 := by
  unfold Snark.LF_closer_dis
  rcases hrun : Snark.LF_closer_dis_run c with _ | v
  · simp
  · have hv := snark_closerScan_vote (show Snark.closerScan c.sent.entity_types
      c.sent.entity_cids "Disease" c.disease.word_start (Snark.closerDisIdx c) =
        some v from hrun)
    simp only
    rcases hv with rfl | rfl
    · exact Or.inl rfl
    · exact Or.inr (Or.inl rfl)

theorem snark_closerChem_reads_bounds (c : Snark.Candidate)
    (hchem : c.chemical.word_start < c.sent.words.length)
    (hdis : c.disease.word_start < c.sent.words.length) :
    ∀ i ∈ Snark.closerChemReads c, 0 ≤ i ∧ i < (c.sent.words.length : Int) := by
  intro i hi
  rcases List.mem_append.mp hi with h | h
  · simp only [Snark.closerChemIdx, List.mem_append, snark_mem_pyRange] at h
    rcases h with ⟨h1, h2⟩ | ⟨h1, h2⟩ <;> omega
  · by_cases hE : Snark.closerChemIdx c = [] <;> simp [hE] at h
    subst h
    omega

theorem snark_closerDis_reads_bounds (c : Snark.Candidate)
    (hchem : c.chemical.word_start < c.sent.words.length)
    (hdis : c.disease.word_start < c.sent.words.length) :
    ∀ i ∈ Snark.closerDisReads c, 0 ≤ i ∧ i < (c.sent.words.length : Int) := by
  intro i hi
  rcases List.mem_append.mp hi with h | h
  · simp only [Snark.closerDisIdx, List.mem_append, snark_mem_pyRange] at h
    rcases h with ⟨h1, h2⟩ | ⟨h1, h2⟩ <;> omega
  · by_cases hE : Snark.closerDisIdx c = [] <;> simp [hE] at h
    subst h
    omega

/-- C8 (counterexample): `LF_closer_chem` is in the notebook's `LFs` list,
yet at the concrete candidate `cBad` — whose entity arrays are exactly as
long as its words array — its Python evaluation raises IndexError on
`sent.entity_types[0]` instead of returning a vote: the faithful evaluation
is `none`, so the function is not a total mapping of every candidate into
{-1, 0, +1}. -/
theorem lfs_vote_in_alphabet_cex :
    Snark.LF_closer_chem ∈ Snark.LFs ∧
      Snark.cBad.sent.words.length ≤ Snark.cBad.sent.entity_types.length ∧
      Snark.cBad.sent.words.length ≤ Snark.cBad.sent.entity_cids.length ∧
      Snark.LF_closer_chem_run Snark.cBad = none :=
  ⟨by simp [Snark.LFs], by decide, by decide, by decide⟩

/-- C8 (amended): on every candidate whose entity arrays are at least as
long as its words array and whose chemical and disease mention start
indices lie within the words array, `LF_closer_chem` and `LF_closer_dis`
evaluate without fault (their checked runs return a value, so no
IndexError path is taken), and every labeling function in the notebook's
`LFs` list returns exactly one vote in the alphabet {-1, 0, +1}
(0 = abstain). -/
theorem lfs_vote_in_alphabet (c : Snark.Candidate)
    (hT : c.sent.words.length ≤ c.sent.entity_types.length)
    (hC : c.sent.words.length ≤ c.sent.entity_cids.length)
    (hchem : c.chemical.word_start < c.sent.words.length)
    (hdis : c.disease.word_start < c.sent.words.length) :
    (Snark.LF_closer_chem_run c = some (Snark.LF_closer_chem c) ∧
      Snark.LF_closer_dis_run c = some (Snark.LF_closer_dis c)) ∧
      ∀ f ∈ Snark.LFs, f c = -1 ∨ f c = 0 ∨ f c = 1 := by
  have hbc := snark_closerChem_reads_bounds c hchem hdis
  have hbd := snark_closerDis_reads_bounds c hchem hdis
  constructor
  · constructor
    · have hb : ∀ i ∈ Snark.closerChemIdx c, 0 ≤ i ∧
          i.toNat < c.sent.entity_types.length ∧ i.toNat < c.sent.entity_cids.length := by
        intro i hi
        have := hbc i (List.mem_append_left _ hi)
        omega
      have href : c.chemical.word_start < c.sent.entity_cids.length := by omega
      obtain ⟨v, hv⟩ := snark_closerScan_isSome "Chemical" href hb
      have hrun : Snark.LF_closer_chem_run c = some v := hv
      have hval : Snark.LF_closer_chem c = v := by
        unfold Snark.LF_closer_chem
        rw [hrun]
      rw [hrun, hval]
    · have hb : ∀ i ∈ Snark.closerDisIdx c, 0 ≤ i ∧
          i.toNat < c.sent.entity_types.length ∧ i.toNat < c.sent.entity_cids.length := by
        intro i hi
        have := hbd i (List.mem_append_left _ hi)
        omega
      have href : c.disease.word_start < c.sent.entity_cids.length := by omega
      obtain ⟨v, hv⟩ := snark_closerScan_isSome "Disease" href hb
      have hrun : Snark.LF_closer_dis_run c = some v := hv
      have hval : Snark.LF_closer_dis c = v := by
        unfold Snark.LF_closer_dis
        rw [hrun]
      rw [hrun, hval]
  · intro f hf
    simp only [Snark.LFs, List.mem_cons, List.not_mem_nil, or_false] at hf
    rcases hf with rfl | rfl | rfl | rfl | rfl | rfl | rfl | rfl | rfl | rfl | rfl | rfl | rfl |
      rfl | rfl | rfl | rfl | rfl | rfl | rfl | rfl | rfl | rfl | rfl | rfl | rfl | rfl | rfl |
      rfl | rfl | rfl | rfl | rfl <;>
      try (simp only [Snark.LF_c_cause_d, Snark.LF_c_d, Snark.LF_c_induced_d, Snark.LF_c_treat_d,
            Snark.LF_c_treat_d_wide, Snark.LF_ctd_marker_c_d, Snark.LF_ctd_marker_induce,
            Snark.LF_ctd_therapy_treat, Snark.LF_ctd_unspecified_treat,
            Snark.LF_ctd_unspecified_induce, Snark.LF_d_following_c, Snark.LF_d_induced_by_c,
            Snark.LF_d_induced_by_c_tight, Snark.LF_d_treat_c, Snark.LF_develop_d_following_c,
            Snark.LF_far_c_d, Snark.LF_far_d_c, Snark.LF_improve_before_disease,
            Snark.LF_in_ctd_therapy, Snark.LF_in_ctd_marker, Snark.LF_in_patient_with,
            Snark.LF_induce, Snark.LF_induce_name, Snark.LF_induced_other, Snark.LF_level,
            Snark.LF_measure, Snark.LF_neg_d, Snark.LF_risk_d, Snark.LF_treat_d,
            Snark.LF_uncertain, Snark.LF_weak_assertions, Snark.rule_regex_search,
            Snark.cand_in_ctd_unspecified, Snark.cand_in_ctd_therapy, Snark.cand_in_ctd_marker,
            Snark.pyOr]
           split_ifs <;> norm_num)
    · exact snark_closer_chem_vote c
    · exact snark_closer_dis_vote c

theorem lfs_vote_in_alphabet_witness :
    Snark.cGood.sent.words.length ≤ Snark.cGood.sent.entity_types.length ∧
      Snark.cGood.sent.words.length ≤ Snark.cGood.sent.entity_cids.length ∧
      Snark.cGood.chemical.word_start < Snark.cGood.sent.words.length ∧
      Snark.cGood.disease.word_start < Snark.cGood.sent.words.length ∧
      ((Snark.LF_closer_chem_run Snark.cGood = some (Snark.LF_closer_chem Snark.cGood) ∧
          Snark.LF_closer_dis_run Snark.cGood = some (Snark.LF_closer_dis Snark.cGood)) ∧
        ∀ f ∈ Snark.LFs,
          f Snark.cGood = -1 ∨ f Snark.cGood = 0 ∨ f Snark.cGood = 1) :=
  ⟨by decide, by decide, by decide, by decide,
   lfs_vote_in_alphabet Snark.cGood (by decide) (by decide) (by decide) (by decide)⟩

/-- C9: each composite labeling function built by multiplication computes
the abstain-dominant sign-product rule: 0 if either operand is 0, and
otherwise the sign of the first operand times the sign of the second. -/
theorem composite_lfs_sign_product (c : Snark.Candidate) :
    Snark.LF_ctd_marker_c_d c =
        Snark.signProd (Snark.LF_c_d c) (Snark.cand_in_ctd_marker c) ∧
      Snark.LF_ctd_marker_induce c =
        Snark.signProd (Snark.pyOr (Snark.LF_c_induced_d c) (Snark.LF_d_induced_by_c_tight c))
          (Snark.cand_in_ctd_marker c) ∧
      Snark.LF_ctd_therapy_treat c =
        Snark.signProd (Snark.LF_c_treat_d_wide c) (Snark.cand_in_ctd_therapy c) ∧
      Snark.LF_ctd_unspecified_treat c =
        Snark.signProd (Snark.LF_c_treat_d_wide c) (Snark.cand_in_ctd_unspecified c) ∧
      Snark.LF_ctd_unspecified_induce c =
        Snark.signProd (Snark.pyOr (Snark.LF_c_induced_d c) (Snark.LF_d_induced_by_c_tight c))
          (Snark.cand_in_ctd_unspecified c) := by
  refine ⟨?_, ?_, ?_, ?_, ?_⟩
  · exact snark_mul_eq_signProd (snark_voteOK_LF_c_d c) (snark_voteOK_cand_in_ctd_marker c)
  · exact snark_mul_eq_signProd (snark_voteOK_induce_arm c) (snark_voteOK_cand_in_ctd_marker c)
  · exact snark_mul_eq_signProd (snark_voteOK_LF_c_treat_d_wide c)
      (snark_voteOK_cand_in_ctd_therapy c)
  · exact snark_mul_eq_signProd (snark_voteOK_LF_c_treat_d_wide c)
      (snark_voteOK_cand_in_ctd_unspecified c)
  · exact snark_mul_eq_signProd (snark_voteOK_induce_arm c)
      (snark_voteOK_cand_in_ctd_unspecified c)

/-- C10 (counterexample): a candidate whose entity arrays are as long as its
words array (all empty) but whose disease mention start lies beyond the
sentence: `LF_closer_chem`'s second loop is not clamped above by
`len(sent.words)`, so it reads index 0 of the empty entity arrays. -/
theorem closer_chem_read_oob_cex :
    (Snark.cBad.sent.words.length ≤ Snark.cBad.sent.entity_types.length ∧
      Snark.cBad.sent.words.length ≤ Snark.cBad.sent.entity_cids.length) ∧
      0 ∈ Snark.closerChemReads Snark.cBad ∧
      ¬ ((0 : Int) < (Snark.cBad.sent.words.length : Int)) := by
  decide

/-- C10 (amended): if additionally both mention start offsets lie inside the
words array, then every index at which `LF_closer_chem` or `LF_closer_dis`
subscripts `sent.entity_types` / `sent.entity_cids` is within bounds. -/
theorem closer_reads_in_bounds (c : Snark.Candidate)
    (_hT : c.sent.words.length ≤ c.sent.entity_types.length)
    (_hC : c.sent.words.length ≤ c.sent.entity_cids.length)
    (hchem : c.chemical.word_start < c.sent.words.length)
    (hdis : c.disease.word_start < c.sent.words.length) :
    (∀ i ∈ Snark.closerChemReads c, 0 ≤ i ∧ i < (c.sent.words.length : Int)) ∧
      (∀ i ∈ Snark.closerDisReads c, 0 ≤ i ∧ i < (c.sent.words.length : Int)) :=
  ⟨snark_closerChem_reads_bounds c hchem hdis, snark_closerDis_reads_bounds c hchem hdis⟩

theorem closer_reads_in_bounds_witness :
    Snark.cGood.sent.words.length ≤ Snark.cGood.sent.entity_types.length ∧
      Snark.cGood.sent.words.length ≤ Snark.cGood.sent.entity_cids.length ∧
      Snark.cGood.chemical.word_start < Snark.cGood.sent.words.length ∧
      Snark.cGood.disease.word_start < Snark.cGood.sent.words.length ∧
      ((∀ i ∈ Snark.closerChemReads Snark.cGood,
          0 ≤ i ∧ i < (Snark.cGood.sent.words.length : Int)) ∧
        (∀ i ∈ Snark.closerDisReads Snark.cGood,
          0 ≤ i ∧ i < (Snark.cGood.sent.words.length : Int))) :=
  ⟨by decide, by decide, by decide, by decide,
   closer_reads_in_bounds Snark.cGood (by decide) (by decide) (by decide) (by decide)⟩

theorem engine_flatMap_nested {β γ : Type} (parts : List (List β)) (g : β → List γ) :
    parts.flatMap (fun p => p.flatMap g) = (parts.flatMap id).flatMap g := by
  rw [List.flatMap_assoc]
  rfl

theorem engine_gather_perm {α : Type} (F : List (α → Int))
    {parts : List (List (Nat × α))} {cs : List α} (h : Engine.isPartitionOf parts cs) :
    (Engine.gatherTriples parts F).Perm (Engine.applyTriples cs F) := by
  have : Engine.gatherTriples parts F =
      (parts.flatMap id).flatMap fun ic => Engine.rowTriples F ic.1 ic.2 := by
    rw [Engine.gatherTriples]
    rw [show (Engine.workerTriples F) = fun p => p.flatMap fun ic => Engine.rowTriples F ic.1 ic.2
        from rfl]
    exact engine_flatMap_nested parts _
  rw [this]
  exact h.flatMap_right _

theorem engine_mem_rowTriples {α : Type} {F : List (α → Int)} {i' : Nat} {c : α}
    {i j : Nat} {v : Int} :
    (i, j, v) ∈ Engine.rowTriples F i' c ↔
      i = i' ∧ j < F.length ∧ Engine.rowVote F c j = v ∧ v ≠ 0 := by
  simp only [Engine.rowTriples, List.mem_filterMap, List.mem_range]
  constructor
  · rintro ⟨j2, hj2, hsome⟩
    by_cases h0 : Engine.rowVote F c j2 = 0
    · simp [h0] at hsome
    · simp only [h0, if_false, Option.some.injEq, Prod.mk.injEq] at hsome
      obtain ⟨h1, h2, h3⟩ := hsome
      subst h1
      subst h2
      exact ⟨rfl, hj2, h3, h3 ▸ h0⟩
  · rintro ⟨rfl, hj, hv, hne⟩
    subst hv
    exact ⟨j, hj, by simp [hne]⟩

theorem engine_mem_applyTriples {α : Type} {cs : List α} {F : List (α → Int)}
    {i j : Nat} {v : Int} :
    (i, j, v) ∈ Engine.applyTriples cs F ↔
      ∃ c, cs[i]? = some c ∧ j < F.length ∧ Engine.rowVote F c j = v ∧ v ≠ 0 := by
  simp only [Engine.applyTriples, Engine.workerTriples, List.mem_flatMap]
  constructor
  · rintro ⟨⟨i2, c⟩, hmem, h⟩
    rw [engine_mem_rowTriples] at h
    obtain ⟨rfl, hj, hv, hne⟩ := h
    exact ⟨c, List.mk_mem_enum_iff_getElem?.mp hmem, hj, hv, hne⟩
  · rintro ⟨c, hc, hj, hv, hne⟩
    exact ⟨(i, c), List.mk_mem_enum_iff_getElem?.mpr hc,
      engine_mem_rowTriples.mpr ⟨rfl, hj, hv, hne⟩⟩

theorem engine_find_eq_some_of_unique {β : Type} {p : β → Bool} {l : List β} {a : β}
    (ha : a ∈ l) (hpa : p a = true) (uniq : ∀ b ∈ l, p b = true → b = a) :
    l.find? p = some a := by
  induction l with
  | nil => cases ha
  | cons x xs ih =>
    by_cases hx : p x = true
    · have hxa : x = a := uniq x (List.mem_cons_self x xs) hx
      subst hxa
      exact List.find?_cons_of_pos xs hx
    · rw [List.find?_cons_of_neg xs hx]
      rcases List.mem_cons.mp ha with rfl | ha2
      · exact absurd hpa hx
      · exact ih ha2 fun b hb hpb => uniq b (List.mem_cons_of_mem x hb) hpb

theorem engine_cellValue_applyMatrix {α : Type} {cs : List α} {F : List (α → Int)}
    {i j : Nat} {c : α} (hc : cs[i]? = some c) (hj : j < F.length) :
    Engine.cellValue (Engine.applyMatrix cs F) i j = Engine.rowVote F c j := by
  have hent : (Engine.applyMatrix cs F).entries = Engine.applyTriples cs F := rfl
  by_cases h0 : Engine.rowVote F c j = 0
  · have hnone : (Engine.applyMatrix cs F).entries.find?
        (fun t => t.1 == i && t.2.1 == j) = none := by
      rw [List.find?_eq_none]
      rintro ⟨t1, t2, t3⟩ ht hp
      simp only [Bool.and_eq_true, beq_iff_eq] at hp
      obtain ⟨rfl, rfl⟩ := hp
      rw [hent, engine_mem_applyTriples] at ht
      obtain ⟨c2, hc2, _, hv2, hne2⟩ := ht
      rw [hc] at hc2
      cases hc2
      exact hne2 (by rw [← hv2]; exact h0)
    rw [Engine.cellValue, hnone, h0]
  · have hmem : (i, j, Engine.rowVote F c j) ∈ (Engine.applyMatrix cs F).entries := by
      rw [hent, engine_mem_applyTriples]
      exact ⟨c, hc, hj, rfl, h0⟩
    have hfind : (Engine.applyMatrix cs F).entries.find?
        (fun t => t.1 == i && t.2.1 == j) = some (i, j, Engine.rowVote F c j) := by
      apply engine_find_eq_some_of_unique hmem (by simp)
      rintro ⟨t1, t2, t3⟩ ht hp
      simp only [Bool.and_eq_true, beq_iff_eq] at hp
      obtain ⟨rfl, rfl⟩ := hp
      rw [hent, engine_mem_applyTriples] at ht
      obtain ⟨c2, hc2, _, hv2, _⟩ := ht
      rw [hc] at hc2
      cases hc2
      rw [hv2]
    rw [Engine.cellValue, hfind]

/-- C1: running `apply` twice with the same cached candidate set and the
same ordered function list, under any two valid distributions of the cache
(any worker counts, arrival orders and schedules), produces identical sets
of (row, col, value) triples. -/
theorem apply_is_deterministic {α : Type} (cs : List α) (F : List (α → Int))
    (parts1 parts2 : List (List (Nat × α)))
    (h1 : Engine.isPartitionOf parts1 cs) (h2 : Engine.isPartitionOf parts2 cs) :
    (Engine.gatherTriples parts1 F).toFinset = (Engine.gatherTriples parts2 F).toFinset :=
  (list_toFinset_eq_of_perm (engine_gather_perm F h1)).trans
    (list_toFinset_eq_of_perm (engine_gather_perm F h2)).symm

theorem apply_is_deterministic_witness :
    Engine.isPartitionOf Engine.samplePartsA Engine.sampleCands ∧
      Engine.isPartitionOf Engine.samplePartsB Engine.sampleCands ∧
      (Engine.gatherTriples Engine.samplePartsA Engine.sampleLFs).toFinset =
        (Engine.gatherTriples Engine.samplePartsB Engine.sampleLFs).toFinset := by
  have hp1 : Engine.isPartitionOf Engine.samplePartsA Engine.sampleCands := by
    unfold Engine.isPartitionOf
    decide
  have hp2 : Engine.isPartitionOf Engine.samplePartsB Engine.sampleCands := by
    unfold Engine.isPartitionOf
    decide
  exact ⟨hp1, hp2,
    apply_is_deterministic Engine.sampleCands Engine.sampleLFs _ _ hp1 hp2⟩

/-- C2: the matrix returned by `apply` has row count `|C|` and column count
`|F|`, and an entry sits at (i, j) with value v exactly when the i-th
candidate of the cached stable order exists, the j-th function of `F`
exists, and that function votes v ≠ 0 on that candidate — so row i always
corresponds to the i-th cached candidate, whatever subset of functions
produced entries in it. -/
theorem apply_matrix_shape {α : Type} (cs : List α) (F : List (α → Int)) :
    (Engine.applyMatrix cs F).rowCount = cs.length ∧
      (Engine.applyMatrix cs F).colCount = F.length ∧
      ∀ i j v, ((i, j, v) ∈ (Engine.applyMatrix cs F).entries ↔
        ∃ c f, cs[i]? = some c ∧ F[j]? = some f ∧ f c = v ∧ v ≠ 0) := by
  refine ⟨rfl, rfl, fun i j v => ?_⟩
  have hent : (Engine.applyMatrix cs F).entries = Engine.applyTriples cs F := rfl
  rw [hent, engine_mem_applyTriples]
  constructor
  · rintro ⟨c, hc, hj, hv, hne⟩
    refine ⟨c, F.get ⟨j, hj⟩, hc, List.getElem?_eq_getElem hj, ?_, hne⟩
    rw [← hv]
    simp [Engine.rowVote, List.getElem?_eq_getElem hj]
  · rintro ⟨c, f, hc, hf, hfc, hne⟩
    obtain ⟨hj, hgetf⟩ := List.getElem?_eq_some.mp hf
    refine ⟨c, hc, hj, ?_, hne⟩
    simp only [Engine.rowVote, hf]
    exact hfc

/-- C3: cell (i, j) of the applied matrix is exactly the vote of the j-th
function of the caller-supplied order on the i-th candidate of the cache's
stable order; applying with `F` reversed moves that value to column
`|F| - 1 - j` (columns swap, per-function values unchanged); and the
gathered triple set is invariant under any valid distribution of the cache
(cluster size and scheduling nondeterminism). -/
theorem apply_matrix_ordering {α : Type} (cs : List α) (F : List (α → Int))
    (i j : Nat) (c : α) (hc : cs[i]? = some c) (hj : j < F.length) :
    Engine.cellValue (Engine.applyMatrix cs F) i j = Engine.rowVote F c j ∧
      Engine.cellValue (Engine.applyMatrix cs F.reverse) i j =
        Engine.rowVote F c (F.length - 1 - j) ∧
      ∀ parts, Engine.isPartitionOf parts cs →
        (Engine.gatherTriples parts F).toFinset = (Engine.applyTriples cs F).toFinset := by
  refine ⟨engine_cellValue_applyMatrix hc hj, ?_,
    fun parts hp => list_toFinset_eq_of_perm (engine_gather_perm F hp)⟩
  have hjr : j < F.reverse.length := by simpa using hj
  rw [engine_cellValue_applyMatrix hc hjr]
  simp only [Engine.rowVote]
  rw [List.getElem?_reverse hj]

theorem apply_matrix_ordering_witness :
    Engine.sampleCands[0]? = some 3 ∧ 0 < Engine.sampleLFs2.length ∧
      (Engine.cellValue (Engine.applyMatrix Engine.sampleCands Engine.sampleLFs2) 0 0 =
          Engine.rowVote Engine.sampleLFs2 3 0 ∧
        Engine.cellValue (Engine.applyMatrix Engine.sampleCands Engine.sampleLFs2.reverse) 0 0 =
          Engine.rowVote Engine.sampleLFs2 3 (Engine.sampleLFs2.length - 1 - 0) ∧
        ∀ parts, Engine.isPartitionOf parts Engine.sampleCands →
          (Engine.gatherTriples parts Engine.sampleLFs2).toFinset =
            (Engine.applyTriples Engine.sampleCands Engine.sampleLFs2).toFinset) := by
  have hc : Engine.sampleCands[0]? = some 3 := by decide
  have hj : 0 < Engine.sampleLFs2.length := by decide
  exact ⟨hc, hj, apply_matrix_ordering Engine.sampleCands Engine.sampleLFs2 0 0 3 hc hj⟩

/-- C4: on a label matrix with zero rows, `lf_stats` returns one record per
function column whose coverage, overlap and conflict are the explicit
undefined marker (`none`); the function is total, so no exception is raised
and no division-by-zero value is propagated. -/
theorem lf_stats_zero_rows (M : Engine.LabelMatrix) (h : M.rowCount = 0) :
    (Engine.lf_stats M).length = M.colCount ∧
      ∀ r ∈ Engine.lf_stats M,
        r.coverage = none ∧ r.overlap = none ∧ r.conflict = none := by
  constructor
  · simp [Engine.lf_stats]
  · intro r hr
    simp [Engine.lf_stats, h] at hr
    rw [hr.2]
    exact ⟨rfl, rfl, rfl⟩

theorem lf_stats_zero_rows_witness :
    (Engine.applyMatrix ([] : List Nat) Engine.sampleLFs).rowCount = 0 ∧
      ((Engine.lf_stats (Engine.applyMatrix ([] : List Nat) Engine.sampleLFs)).length =
          (Engine.applyMatrix ([] : List Nat) Engine.sampleLFs).colCount ∧
        ∀ r ∈ Engine.lf_stats (Engine.applyMatrix ([] : List Nat) Engine.sampleLFs),
          r.coverage = none ∧ r.overlap = none ∧ r.conflict = none) :=
  ⟨rfl, lf_stats_zero_rows (Engine.applyMatrix ([] : List Nat) Engine.sampleLFs) rfl⟩

/-- C5: a second `prepare` call with the same (split, candidate-set
identity) key returns the existing cached handle, leaves the cache state
unchanged, and in particular performs no additional transmission (the
transmission counter is unchanged). -/
theorem prepare_second_call_cached (st : Engine.CacheState) (split ident : Nat) :
    (Engine.prepare (Engine.prepare st split ident).1 split ident).2 =
        (Engine.prepare st split ident).2 ∧
      (Engine.prepare (Engine.prepare st split ident).1 split ident).1 =
        (Engine.prepare st split ident).1 ∧
      (Engine.prepare (Engine.prepare st split ident).1 split ident).1.transmissions =
        (Engine.prepare st split ident).1.transmissions := by
  rcases hl : st.table.lookup (split, ident) with _ | h
  · have hl2 : ((((split, ident), st.nextHandle) :: st.table).lookup (split, ident)) =
        some st.nextHandle := by
      simp [List.lookup]
    simp [Engine.prepare, hl, hl2]
  · simp [Engine.prepare, hl]

theorem engine_filterMap_range_nil {γ : Type} {m : Nat} {g : Nat → Option γ}
    (h : ∀ j < m, g j = none) : (List.range m).filterMap g = [] := by
  rw [List.filterMap_eq_nil_iff]
  intro j hj
  exact h j (List.mem_range.mp hj)

theorem engine_filterMap_range_singleton {γ : Type} {m j₀ : Nat} {g : Nat → Option γ} {a : γ}
    (hj : j₀ < m) (hg : g j₀ = some a) (huniq : ∀ j < m, j ≠ j₀ → g j = none) :
    (List.range m).filterMap g = [a] := by
  induction m with
  | zero => exact absurd hj (Nat.not_lt_zero j₀)
  | succ m ih =>
    rw [List.range_succ, List.filterMap_append]
    by_cases hcase : j₀ = m
    · subst hcase
      rw [engine_filterMap_range_nil fun j hj2 => huniq j (by omega) (by omega)]
      simp [List.filterMap_cons, hg]
    · have hlast : g m = none := huniq m (by omega) (by omega)
      rw [ih (by omega) fun j hj3 hne => huniq j (by omega) hne]
      simp [List.filterMap_cons, hlast]

theorem engine_flatMap_range_nil {γ : Type} {n : Nat} {g : Nat → List γ}
    (h : ∀ i < n, g i = []) : (List.range n).flatMap g = [] := by
  rw [List.flatMap_eq_nil_iff]
  intro i hi
  exact h i (List.mem_range.mp hi)

theorem engine_flatMap_range_singleton {γ : Type} {n i₀ : Nat} {g : Nat → List γ} {l : List γ}
    (hi : i₀ < n) (hgl : g i₀ = l) (huniq : ∀ i < n, i ≠ i₀ → g i = []) :
    (List.range n).flatMap g = l := by
  induction n with
  | zero => exact absurd hi (Nat.not_lt_zero i₀)
  | succ n ih =>
    rw [List.range_succ, List.flatMap_append]
    by_cases hcase : i₀ = n
    · subst hcase
      rw [engine_flatMap_range_nil fun i hi2 => huniq i (by omega) (by omega)]
      simp [hgl]
    · have hlast : g n = [] := huniq n (by omega) (by omega)
      rw [ih (by omega) fun i hi3 hne => huniq i (by omega) hne]
      simp [hlast]

theorem engine_faultLog_single {α : Type} {cs : List (Nat × α)}
    {F : List (α → Except Unit Int)} {i₀ j₀ : Nat}
    (hi : i₀ < cs.length) (hj : j₀ < F.length)
    (hf : Engine.isFault cs F i₀ j₀ = true)
    (huniq : ∀ i < cs.length, ∀ j < F.length,
      Engine.isFault cs F i j = true → i = i₀ ∧ j = j₀) :
    Engine.faultLog cs F = [⟨j₀, Engine.keyAt cs i₀⟩] := by
  unfold Engine.faultLog
  apply engine_flatMap_range_singleton hi
  · apply engine_filterMap_range_singleton hj
    · simp [hf]
    · intro j hjm hne
      by_cases hft : Engine.isFault cs F i₀ j = true
      · exact absurd (huniq i₀ hi j hjm hft).2 hne
      · have hff : Engine.isFault cs F i₀ j = false := by simpa using hft
        simp [hff]
  · intro i him hnei
    apply engine_filterMap_range_nil
    intro j hjm
    by_cases hft : Engine.isFault cs F i j = true
    · exact absurd (huniq i him j hjm hft).1 hnei
    · have hff : Engine.isFault cs F i j = false := by simpa using hft
      simp [hff]

theorem engine_fault_cell_not_in_okTriples {α : Type} {cs : List (Nat × α)}
    {F : List (α → Except Unit Int)} {i₀ j₀ : Nat}
    (hf : Engine.isFault cs F i₀ j₀ = true) :
    ∀ v, (i₀, j₀, v) ∉ Engine.okTriples cs F := by
  intro v hv
  simp only [Engine.okTriples, List.mem_flatMap, List.mem_filterMap, List.mem_range] at hv
  obtain ⟨i, hi, j, hj, hcell⟩ := hv
  rcases hrun : Engine.cellRun cs F i j with _ | e
  · simp [hrun] at hcell
  · rcases e with u | v2
    · simp [hrun] at hcell
    · simp only [hrun] at hcell
      by_cases h0 : v2 = 0
      · simp [h0] at hcell
      · simp only [h0, if_false, Option.some.injEq, Prod.mk.injEq] at hcell
        obtain ⟨rfl, rfl, _⟩ := hcell
        rw [Engine.isFault, hrun] at hf
        cases hf

/-- C6: when exactly one (function, candidate) cell faults, fail-fast mode
aborts the whole run with an `LFExecutionError` naming that function and
that candidate's key (the fault is never coerced to abstain), while
isolated mode succeeds with that cell absent from the emitted triples
(recorded as abstain) and exactly one fault logged with the same function
identity and candidate key. -/
theorem apply_fault_modes {α : Type} (cs : List (Nat × α))
    (F : List (α → Except Unit Int)) (i₀ j₀ : Nat)
    (hi : i₀ < cs.length) (hj : j₀ < F.length)
    (hf : Engine.isFault cs F i₀ j₀ = true)
    (huniq : ∀ i < cs.length, ∀ j < F.length,
      Engine.isFault cs F i j = true → i = i₀ ∧ j = j₀) :
    Engine.applyFallible .failFast cs F = .error ⟨j₀, Engine.keyAt cs i₀⟩ ∧
      Engine.applyFallible .isolated cs F =
        .ok (Engine.okTriples cs F, [⟨j₀, Engine.keyAt cs i₀⟩]) ∧
      ∀ v, (i₀, j₀, v) ∉ Engine.okTriples cs F := by
  have hlog := engine_faultLog_single hi hj hf huniq
  refine ⟨?_, ?_, engine_fault_cell_not_in_okTriples hf⟩
  · simp [Engine.applyFallible, hlog]
  · simp [Engine.applyFallible, hlog]

theorem apply_fault_modes_witness :
    0 < Engine.sampleKeyed.length ∧ 0 < Engine.sampleFaulty.length ∧
      Engine.isFault Engine.sampleKeyed Engine.sampleFaulty 0 0 = true ∧
      (∀ i < Engine.sampleKeyed.length, ∀ j < Engine.sampleFaulty.length,
        Engine.isFault Engine.sampleKeyed Engine.sampleFaulty i j = true → i = 0 ∧ j = 0) ∧
      (Engine.applyFallible .failFast Engine.sampleKeyed Engine.sampleFaulty =
          .error ⟨0, Engine.keyAt Engine.sampleKeyed 0⟩ ∧
        Engine.applyFallible .isolated Engine.sampleKeyed Engine.sampleFaulty =
          .ok (Engine.okTriples Engine.sampleKeyed Engine.sampleFaulty,
            [⟨0, Engine.keyAt Engine.sampleKeyed 0⟩]) ∧
        ∀ v, (0, 0, v) ∉ Engine.okTriples Engine.sampleKeyed Engine.sampleFaulty) := by
  have h1 : 0 < Engine.sampleKeyed.length := by decide
  have h2 : 0 < Engine.sampleFaulty.length := by decide
  have h3 : Engine.isFault Engine.sampleKeyed Engine.sampleFaulty 0 0 = true := by decide
  have h4 : ∀ i < Engine.sampleKeyed.length, ∀ j < Engine.sampleFaulty.length,
      Engine.isFault Engine.sampleKeyed Engine.sampleFaulty i j = true → i = 0 ∧ j = 0 := by
    decide
  exact ⟨h1, h2, h3, h4,
    apply_fault_modes Engine.sampleKeyed Engine.sampleFaulty 0 0 h1 h2 h3 h4⟩

/-- C7: when `assemble` succeeds, every (row, col) coordinate appears at
most once in the merged matrix; and if the partition inputs contain a
duplicate (row, col) coordinate, `assemble` fails with an
`InvariantViolation` under every partition arrival order rather than
silently deduplicating. -/
theorem assemble_rejects_duplicates (parts partsP : List (List Engine.Triple))
    (rc cc : Nat) (hperm : parts.Perm partsP) :
    (∀ M, Engine.assemble parts rc cc = .ok M → (Engine.coordsOf M.entries).Nodup) ∧
      (¬ (Engine.coordsOf (parts.flatMap id)).Nodup →
        ∃ e, Engine.assemble partsP rc cc = .error e) := by
  constructor
  · intro M hM
    simp only [Engine.assemble] at hM
    split_ifs at hM with hcond
    cases hM
    exact hcond.1
  · intro hdup
    simp only [Engine.assemble]
    split_ifs with hcond
    · exfalso
      apply hdup
      have hp : (parts.flatMap id).Perm (partsP.flatMap id) := hperm.flatMap_right id
      have hmap : (Engine.coordsOf (parts.flatMap id)).Perm
          (Engine.coordsOf (partsP.flatMap id)) := hp.map _
      exact hmap.nodup_iff.mpr hcond.1
    · exact ⟨⟨⟩, rfl⟩

theorem assemble_rejects_duplicates_witness :
    (Engine.sampleDupA).Perm Engine.sampleDupB ∧
      ((∀ M, Engine.assemble Engine.sampleDupA 1 1 = .ok M →
          (Engine.coordsOf M.entries).Nodup) ∧
        (¬ (Engine.coordsOf (Engine.sampleDupA.flatMap id)).Nodup →
          ∃ e, Engine.assemble Engine.sampleDupB 1 1 = .error e)) := by
  have hp : (Engine.sampleDupA).Perm Engine.sampleDupB := by decide
  exact ⟨hp, assemble_rejects_duplicates Engine.sampleDupA Engine.sampleDupB 1 1 hp⟩
